import Mathlib

/-!
Ambient player: a shallow embedding of the audio playback core.

Definitions are translated from the TypeScript sources of the
ambient-player repository:

* `TrackManager` (src/services/track-manager.ts): per-category track lists
  with cyclic navigation (`getTrack`, `getNextTrack`) and Fisher-Yates
  shuffling (`shuffleTracks`).
* `AudioEngine` (src/utils/audio/audio-engine.ts): `setVolume`, `play`,
  `pause` and `crossfade` over media elements and gain nodes.
* `AudioCache` (src/utils/audio-cache.ts) and `AudioSourceProvider`
  (src/services/audio-source-provider.ts): best-effort caching and URL
  resolution with per-category fallback URLs.
* `toggleBrownNoise` (src/components/AmbientPlayer.tsx): the controller
  toggle operation and its failure semantics.

JavaScript integer arithmetic on array indices is modelled with `Int` and
truncated remainder (`Int.tmod`, the semantics of the JS `%` operator);
out-of-range JS array reads (which yield `undefined`) are modelled with
`Option`.  JS numbers used as volumes are modelled by `Rat` (the programs
only ever divide integers by 100 and take convex combinations, so rational
arithmetic is exact where floating point is approximate).  Asynchronous
code is modelled by explicit environments recording which awaited calls
reject, and functions that cannot throw are total Lean functions.
-/

namespace AmbientPlayer

/-- A track descriptor as produced by the storage listing
(src/types/audio.ts): `category` is the string union
`brown-noise | rain` and `fullPath` the optional storage path. -/
structure AudioTrack where
  url : String
  title : String
  artist : String
  category : String
  fullPath : Option String
  deriving DecidableEq, Repr

/-- The two stored track lists of `TrackManager`
(src/services/track-manager.ts, fields `brownNoiseTracks` and
`rainTracks`). -/
structure TrackManager where
  brownNoiseTracks : List AudioTrack
  rainTracks : List AudioTrack
  deriving DecidableEq, Repr

/-- The `No tracks available for category: ...` error thrown by
`getTrack` and `getNextTrack` on an empty category list. -/
inductive TrackError where
  | emptyCategory (category : String)
  deriving DecidableEq, Repr

namespace TrackManager

/-- The dispatch `category === 'brown-noise' ? this.brownNoiseTracks :
this.rainTracks` shared by `getTrack`, `getNextTrack` and
`shuffleTracks`. -/
def tracksFor (tm : TrackManager) (category : String) : List AudioTrack :=
  if category = "brown-noise" then tm.brownNoiseTracks else tm.rainTracks

/-- A JS array read `tracks[i]` at an `Int` index: out-of-range access
yields `undefined`, modelled as `none`. -/
def jsGet (l : List α) (i : Int) : Option α :=
  if i < 0 then none else l.get? i.toNat

/-- The index expression `(currentIndex + 1) % tracks.length` of
`getNextTrack`, with the truncated-remainder semantics of the JS `%`. -/
def nextIdx (tracks : List AudioTrack) (i : Int) : Int :=
  (i + 1).tmod tracks.length

/-- Source function `TrackManager.getTrack` (src/services/track-manager.ts, lines 95-105):
throws on an empty list, otherwise reads the list at
`((index % tracks.length) + tracks.length) % tracks.length`. -/
def getTrack (tm : TrackManager) (category : String) (index : Int) :
    Except TrackError (Option AudioTrack) :=
  let tracks := tm.tracksFor category
  if tracks.length = 0 then
    .error (.emptyCategory category)
  else
    let safeIndex := ((index.tmod tracks.length) + tracks.length).tmod tracks.length
    .ok (jsGet tracks safeIndex)

/-- Source function `TrackManager.getNextTrack` (src/services/track-manager.ts, lines
110-119): throws on an empty list, otherwise returns
`{ track: tracks[nextIndex], index: nextIndex }` with
`nextIndex = (currentIndex + 1) % tracks.length`. -/
def getNextTrack (tm : TrackManager) (category : String) (currentIndex : Int) :
    Except TrackError (Option AudioTrack × Int) :=
  let tracks := tm.tracksFor category
  if tracks.length = 0 then
    .error (.emptyCategory category)
  else
    let nextIndex := nextIdx tracks currentIndex
    .ok (jsGet tracks nextIndex, nextIndex)

/-- The JS destructuring swap
`[shuffled[i], shuffled[j]] = [shuffled[j], shuffled[i]]`; both reads
happen before both writes.  Out-of-range indices cannot occur in the
shuffle loop (`Math.floor(Math.random() * (i + 1))` lies in `[0, i]`), so
that branch leaves the list unchanged. -/
def listSwap (l : List α) (i j : Nat) : List α :=
  match l.get? i, l.get? j with
  | some a, some b => (l.set i b).set j a
  | _, _ => l

/-- The Fisher-Yates loop of `shuffleTracks`:
`for (let i = shuffled.length - 1; i > 0; i--)` swapping position `i`
with position `rand i`, where `rand i` models
`Math.floor(Math.random() * (i + 1))`. -/
def fisherYates (rand : Nat → Nat) : Nat → List α → List α
  | 0, l => l
  | i + 1, l => fisherYates rand i (listSwap l (i + 1) (rand (i + 1)))

/-- Source function `TrackManager.shuffleTracks` (src/services/track-manager.ts, lines
124-148): returns `[]` on an empty category, otherwise Fisher-Yates
shuffles a copy of the stored list, stores it back for the category, and
returns it. -/
def shuffleTracks (rand : Nat → Nat) (tm : TrackManager) (category : String) :
    List AudioTrack × TrackManager :=
  let tracks := tm.tracksFor category
  if tracks.length = 0 then
    ([], tm)
  else
    let shuffled := fisherYates rand (tracks.length - 1) tracks
    (shuffled,
      if category = "brown-noise" then { tm with brownNoiseTracks := shuffled }
      else { tm with rainTracks := shuffled })

instance {ε α : Type} [DecidableEq ε] [DecidableEq α] :
    DecidableEq (Except ε α) := fun x y =>
  match x, y with
  | .ok a, .ok b =>
    if h : a = b then .isTrue (congrArg Except.ok h)
    else .isFalse (fun hc => h (Except.ok.inj hc))
  | .error a, .error b =>
    if h : a = b then .isTrue (congrArg Except.error h)
    else .isFalse (fun hc => h (Except.error.inj hc))
  | .ok _, .error _ => .isFalse (fun hc => Except.noConfusion hc)
  | .error _, .ok _ => .isFalse (fun hc => Except.noConfusion hc)

/-- Concrete rain track used in counterexamples and witnesses. -/
def trackA : AudioTrack := ⟨"urlA", "Track A", "ambient", "rain", none⟩

/-- Second concrete rain track. -/
def trackB : AudioTrack := ⟨"urlB", "Track B", "ambient", "rain", none⟩

/-- A manager with an empty brown-noise list and two rain tracks. -/
def tmAB : TrackManager := ⟨[], [trackA, trackB]⟩

/-- Moving the head element to position `m` (writing `x` there) is a
permutation of putting `x` at the head. -/
theorem cons_set_perm (x : α) : ∀ (xs : List α) (m : Nat) (hm : m < xs.length),
    (xs.get ⟨m, hm⟩ :: xs.set m x).Perm (x :: xs) := by
  intro xs
  induction xs with
  | nil => intro m hm; exact absurd hm (by simp)
  | cons y ys ih =>
    intro m hm
    cases m with
    | zero => simpa using List.Perm.swap x y ys
    | succ n =>
      have hn : n < ys.length := by simpa using hm
      have h1 : (List.get (y :: ys) ⟨n + 1, hm⟩) = ys.get ⟨n, hn⟩ := rfl
      rw [h1, List.set_cons_succ]
      exact (List.Perm.swap y _ _).trans (((ih n hn).cons y).trans (List.Perm.swap x y ys))

/-- Exchanging the entries at two in-range positions is a permutation. -/
theorem set_set_swap_perm :
    ∀ (l : List α) (i j : Nat) (hi : i < l.length) (hj : j < l.length),
    ((l.set i (l.get ⟨j, hj⟩)).set j (l.get ⟨i, hi⟩)).Perm l := by
  intro l
  induction l with
  | nil => intro i j hi _; exact absurd hi (by simp)
  | cons x xs ih =>
    intro i j hi hj
    cases i with
    | zero =>
      cases j with
      | zero => simp
      | succ m =>
        have hm : m < xs.length := by simpa using hj
        simpa using cons_set_perm x xs m hm
    | succ k =>
      cases j with
      | zero =>
        have hk : k < xs.length := by simpa using hi
        simpa using cons_set_perm x xs k hk
      | succ m =>
        have hk : k < xs.length := by simpa using hi
        have hm : m < xs.length := by simpa using hj
        simpa using (ih k m hk hm).cons x

/-- The JS destructuring swap is always a permutation of the list. -/
theorem listSwap_perm (l : List α) (i j : Nat) : (listSwap l i j).Perm l := by
  unfold listSwap
  split
  next a b ha hb =>
    obtain ⟨hi, hga⟩ := List.get?_eq_some.mp ha
    obtain ⟨hj, hgb⟩ := List.get?_eq_some.mp hb
    rw [← hga, ← hgb]
    exact set_set_swap_perm l i j hi hj
  next => exact List.Perm.refl l

/-- The Fisher-Yates loop permutes its input, whatever the random draws. -/
theorem fisherYates_perm (rand : Nat → Nat) :
    ∀ (n : Nat) (l : List α), (fisherYates rand n l).Perm l := by
  intro n
  induction n with
  | zero => intro l; exact List.Perm.refl l
  | succ i ih =>
    intro l
    exact (ih _).trans (listSwap_perm l (i + 1) (rand (i + 1)))

/-- C4: `shuffleTracks` produces a permutation of the stored category
list — the multiset of track values is unchanged, so track identities are
preserved and only order may change — and the shuffled list replaces the
stored list for that category. -/
theorem shuffleTracks_perm_and_replaces (rand : Nat → Nat) (tm : TrackManager)
    (category : String) :
    ((shuffleTracks rand tm category).1).Perm (tm.tracksFor category) ∧
    ((shuffleTracks rand tm category).2).tracksFor category =
      (shuffleTracks rand tm category).1 := by
  unfold shuffleTracks
  by_cases h : (tm.tracksFor category).length = 0
  · rw [List.length_eq_zero] at h
    simp [h]
  · simp only [h, if_false]
    refine ⟨fisherYates_perm rand _ _, ?_⟩
    unfold tracksFor
    by_cases hc : category = "brown-noise" <;> simp [hc]

/-- Truncated remainder negates with the dividend. -/
theorem tmod_neg_dividend (a b : Int) : (-a).tmod b = -(a.tmod b) := by
  rw [Int.tmod_def, Int.tmod_def, Int.neg_tdiv]
  ring

/-- Truncated remainder by a positive modulus is above the negated
modulus. -/
theorem tmod_gt_neg (i : Int) {n : Int} (hn : 0 < n) : -n < i.tmod n := by
  rcases le_or_lt 0 i with h | h
  · have h0 := Int.tmod_nonneg n h
    linarith
  · have h1 : (-i).tmod n < n := Int.tmod_lt_of_pos (-i) hn
    have h2 := tmod_neg_dividend (-i) n
    rw [neg_neg] at h2
    rw [h2]
    exact neg_lt_neg h1

/-- The normalizing expression `((i % n) + n) % n` of `getTrack`, read
with JS truncated `%`, equals the mathematical (Euclidean) `i mod n`. -/
theorem safeIndex_eq_emod (i : Int) {n : Int} (hn : 0 < n) :
    ((i.tmod n) + n).tmod n = i % n := by
  have h1 : -n < i.tmod n := tmod_gt_neg i hn
  have h0 : 0 ≤ i.tmod n + n := by linarith
  rw [Int.tmod_eq_emod h0 (le_of_lt hn), Int.add_emod_self, Int.tmod_def,
    sub_eq_add_neg]
  exact Int.add_neg_mul_emod_self_left

/-- For an in-range nonnegative start, iterating the `getNextTrack` index
step lands on `(i + k) mod n`. -/
theorem nextIdx_iterate (tracks : List AudioTrack) (k : Nat) :
    ∀ (i : Int), 0 ≤ i → i < tracks.length →
    (nextIdx tracks)^[k] i = (i + (k : Int)) % (tracks.length : Int) := by
  induction k with
  | zero =>
    intro i h0 hlt
    simpa using (Int.emod_eq_of_lt h0 hlt).symm
  | succ k ih =>
    intro i h0 hlt
    have hn : (0 : Int) < tracks.length := lt_of_le_of_lt h0 hlt
    have hstep : nextIdx tracks i = (i + 1) % (tracks.length : Int) := by
      unfold nextIdx
      exact Int.tmod_eq_emod (by linarith) (le_of_lt hn)
    rw [Function.iterate_succ_apply, hstep,
      ih ((i + 1) % (tracks.length : Int)) (Int.emod_nonneg _ (ne_of_gt hn))
        (Int.emod_lt_of_pos _ hn),
      Int.emod_add_emod]
    congr 1
    push_cast
    ring

/-- C3 (counterexample to the claim as stated): at the negative current
index `-2` on a two-track category, `getNextTrack` computes the JS
remainder `(-2 + 1) % 2 = -1`, reads `tracks[-1]` (which is `undefined`),
and returns index `-1` — not the track `trackB` at the mathematical index
`(-2 + 1) mod 2 = 1` that the claim requires. -/
theorem getNextTrack_negative_index_counterexample :
    getNextTrack tmAB "rain" (-2) = .ok (none, -1) ∧
    (-2 + 1 : Int) % 2 = 1 ∧
    jsGet (tmAB.tracksFor "rain") 1 = some trackB := by
  decide

/-- C3 (amended): for every nonnegative current index on a non-empty
category, `getNextTrack` returns the (present) track at the mathematical
index `(i + 1) mod n` together with that index; iterating the index step
`n` times from any index in `[0, n)` returns to the starting index; and
on an empty category list `getNextTrack` fails with the empty-category
error. -/
theorem getNextTrack_cyclic_spec :
    (∀ (tm : TrackManager) (category : String) (i : Int), 0 ≤ i →
      tm.tracksFor category ≠ [] →
      getNextTrack tm category i =
        .ok (jsGet (tm.tracksFor category)
              ((i + 1) % ((tm.tracksFor category).length : Int)),
            (i + 1) % ((tm.tracksFor category).length : Int)) ∧
      (jsGet (tm.tracksFor category)
        ((i + 1) % ((tm.tracksFor category).length : Int))).isSome = true) ∧
    (∀ (tm : TrackManager) (category : String) (i : Int), 0 ≤ i →
      i < (tm.tracksFor category).length →
      (nextIdx (tm.tracksFor category))^[(tm.tracksFor category).length] i = i) ∧
    (∀ (tm : TrackManager) (category : String) (i : Int),
      tm.tracksFor category = [] →
      getNextTrack tm category i = .error (.emptyCategory category)) := by
  refine ⟨?_, ?_, ?_⟩
  · intro tm category i h0 hne
    have hlen : (tm.tracksFor category).length ≠ 0 := by
      simpa using List.length_pos.mpr hne |>.ne'
    have hn : (0 : Int) < (tm.tracksFor category).length := by
      exact_mod_cast Nat.pos_of_ne_zero hlen
    have hmod : nextIdx (tm.tracksFor category) i =
        (i + 1) % ((tm.tracksFor category).length : Int) := by
      unfold nextIdx
      exact Int.tmod_eq_emod (by linarith) (le_of_lt hn)
    have hem0 : 0 ≤ (i + 1) % ((tm.tracksFor category).length : Int) :=
      Int.emod_nonneg _ (ne_of_gt hn)
    have hemlt : (i + 1) % ((tm.tracksFor category).length : Int) <
        (tm.tracksFor category).length := Int.emod_lt_of_pos _ hn
    have htn : ((i + 1) % ((tm.tracksFor category).length : Int)).toNat <
        (tm.tracksFor category).length := by omega
    constructor
    · unfold getNextTrack
      simp only [hlen, if_false, hmod]
    · unfold jsGet
      rw [if_neg (by omega), List.get?_eq_get htn]
      rfl
  · intro tm category i h0 hlt
    have hn : (0 : Int) < (tm.tracksFor category).length := lt_of_le_of_lt h0 hlt
    rw [nextIdx_iterate _ _ _ h0 hlt, Int.add_emod_self]
    exact Int.emod_eq_of_lt h0 hlt
  · intro tm category i hemp
    unfold getNextTrack
    simp [hemp]

/-- C3 witness: one concrete cyclic step on the two-track rain list. -/
theorem getNextTrack_cyclic_spec_witness :
    getNextTrack tmAB "rain" 0 = .ok (some trackB, 1) := by
  have h := (getNextTrack_cyclic_spec.1 tmAB "rain" 0 (by decide) (by decide)).1
  rw [h]
  decide

/-- C9: on a non-empty category list, `getTrack` never throws, whatever
the (possibly negative or out-of-range) integer index: it returns the
present entry at the normalized index `((i % n) + n) % n`, which is the
mathematical `i mod n` and lies in `[0, n)`. -/
theorem getTrack_normalizes_index (tm : TrackManager) (category : String)
    (i : Int) (hne : tm.tracksFor category ≠ []) :
    getTrack tm category i =
      .ok (jsGet (tm.tracksFor category)
        (i % ((tm.tracksFor category).length : Int))) ∧
    0 ≤ i % ((tm.tracksFor category).length : Int) ∧
    i % ((tm.tracksFor category).length : Int) < (tm.tracksFor category).length ∧
    (jsGet (tm.tracksFor category)
      (i % ((tm.tracksFor category).length : Int))).isSome = true := by
  have hlen : (tm.tracksFor category).length ≠ 0 := by
    simpa using List.length_pos.mpr hne |>.ne'
  have hn : (0 : Int) < (tm.tracksFor category).length := by
    exact_mod_cast Nat.pos_of_ne_zero hlen
  have hem0 : 0 ≤ i % ((tm.tracksFor category).length : Int) :=
    Int.emod_nonneg _ (ne_of_gt hn)
  have hemlt : i % ((tm.tracksFor category).length : Int) <
      (tm.tracksFor category).length := Int.emod_lt_of_pos _ hn
  have htn : (i % ((tm.tracksFor category).length : Int)).toNat <
      (tm.tracksFor category).length := by omega
  refine ⟨?_, hem0, hemlt, ?_⟩
  · unfold getTrack
    simp only [hlen, if_false, safeIndex_eq_emod i hn]
  · unfold jsGet
    rw [if_neg (by omega), List.get?_eq_get htn]
    rfl

/-- C9 witness: `getTrack` at the out-of-range index `-4` on the
two-track rain list returns the track at the normalized index `0`. -/
theorem getTrack_normalizes_index_witness :
    getTrack tmAB "rain" (-4) = .ok (some trackA) := by
  have h := (getTrack_normalizes_index tmAB "rain" (-4) (by decide)).1
  rw [h]
  decide

end TrackManager

/-- Lifecycle states of the shared `AudioContext`. -/
inductive CtxState where
  | suspended
  | running
  | closed
  deriving DecidableEq, Repr

/-- The observable state of an `HTMLAudioElement` used by the engine. -/
structure MediaElement where
  src : String
  paused : Bool
  ended : Bool
  currentTime : Rat
  volume : Rat
  loop : Bool
  deriving DecidableEq, Repr

/-- The `gain` audio parameter of a gain node: its current value and
whether ramps are still scheduled on it (`cancelScheduledValues` clears
them). -/
structure GainParam where
  value : Rat
  hasScheduledRamps : Bool
  deriving DecidableEq, Repr

/-- A gain node: its parameter and whether it is connected to the
context destination. -/
structure GainNode where
  gain : GainParam
  connected : Bool
  deriving DecidableEq, Repr

/-- The `track` payload carried by an engine audio source. -/
structure TrackInfo where
  url : String
  title : String
  category : String
  deriving DecidableEq, Repr

/-- Source function `AudioSource` (src/utils/audio/audio-engine.ts): one media element
paired with one gain node. -/
structure AudioSource where
  audio : MediaElement
  gainNode : GainNode
  track : TrackInfo
  deriving DecidableEq, Repr

namespace AudioEngine

/-- Source function `AudioEngine.setVolume` (src/utils/audio/audio-engine.ts, lines
98-126): always writes `volume / 100` to the media element; when the
engine has a context that is not closed it additionally cancels any
scheduled gain ramps and sets the gain value to `volume / 100`.  The
defensive catch around `setValueAtTime` (which reconnects the node and
retries with the same value) is not modelled: the embedding is
exception-free and the catch re-applies the same final value. -/
def setVolume (ctx : Option CtxState) (source : AudioSource) (volume : Rat) :
    AudioSource :=
  let normalizedVolume := volume / 100
  let source1 :=
    { source with audio := { source.audio with volume := normalizedVolume } }
  match ctx with
  | some st =>
    if st ≠ CtxState.closed then
      { source1 with gainNode := { source1.gainNode with
          gain := { value := normalizedVolume, hasScheduledRamps := false } } }
    else source1
  | none => source1

/-- Environment of one `AudioEngine.play` call: whether the first
`audio.play()` rejects, whether the retried `audio.play()` rejects, and
the context state observed by the rejection handler (the browser may
have suspended the context again while the first play was awaited;
`ensureContext` at the top of `play` leaves it running). -/
structure PlayEnv where
  firstPlayRejects : Bool
  retryPlayRejects : Bool
  ctxStateAtRejection : CtxState
  deriving DecidableEq, Repr

/-- Result of `AudioEngine.play`: the updated source, how many
resume-and-retry attempts ran, and whether the call threw its
`Failed to play audio` error. -/
structure PlayResult where
  source : AudioSource
  retries : Nat
  failed : Bool
  deriving DecidableEq, Repr

/-- Source function `AudioEngine.play` (src/utils/audio/audio-engine.ts, lines 131-182):
after `ensureContext`, the gain node is disconnected and reconnected to
the destination; if the media element is not paused the call returns at
once; otherwise an ended element is rewound, `audio.play()` is awaited,
and on rejection the context is resumed and the play retried once —
but only when the context is then suspended; otherwise the rejection is
rethrown immediately.  A second rejection is also rethrown. -/
def play (env : PlayEnv) (source : AudioSource) : PlayResult :=
  let source :=
    { source with gainNode := { source.gainNode with connected := true } }
  if ¬ source.audio.paused then
    { source := source, retries := 0, failed := false }
  else
    let source :=
      if source.audio.ended then
        { source with audio := { source.audio with currentTime := 0 } }
      else source
    if ¬ env.firstPlayRejects then
      { source := { source with audio := { source.audio with paused := false } },
        retries := 0, failed := false }
    else if env.ctxStateAtRejection = CtxState.suspended then
      if ¬ env.retryPlayRejects then
        { source := { source with audio := { source.audio with paused := false } },
          retries := 1, failed := false }
      else
        { source := source, retries := 1, failed := true }
    else
      { source := source, retries := 0, failed := true }

/-- Source function `AudioEngine.pause` (src/utils/audio/audio-engine.ts, lines 187-205):
no-op when the element is already paused, otherwise pauses it; the
surrounding catch only logs, so the call never throws. -/
def pause (source : AudioSource) : AudioSource :=
  if source.audio.paused then source
  else { source with audio := { source.audio with paused := true } }

/-- A `PlayEnv` in which `audio.play()` resolves: used for the awaited
`this.play(nextSource)` inside `crossfade`, whose rejection path is
covered by the `play` model itself. -/
def benignPlayEnv : PlayEnv :=
  { firstPlayRejects := false, retryPlayRejects := false,
    ctxStateAtRejection := CtxState.running }

/-- The two sources as seen by the crossfade animation loop. -/
structure FadeState where
  current : AudioSource
  next : AudioSource
  deriving DecidableEq, Repr

/-- One animation-frame tick of the crossfade loop at `progress`:
fades the outgoing element towards 0 and the incoming one towards
`targetVolume`, skipping whichever element is paused. -/
def crossfadeTick (currentVolume targetVolume progress : Rat)
    (st : FadeState) : FadeState :=
  let st :=
    if ¬ st.current.audio.paused then
      { st with current := { st.current with audio := { st.current.audio with
          volume := max 0 (currentVolume * (1 - progress)) } } }
    else st
  if ¬ st.next.audio.paused then
    { st with next := { st.next with audio := { st.next.audio with
        volume := min targetVolume (targetVolume * progress) } } }
  else st

/-- Source function `AudioEngine.crossfade` (src/utils/audio/audio-engine.ts, lines
210-273), run to completion: if the outgoing source is already paused it
degrades to a plain play of the incoming source; otherwise it records
`targetVolume` (the incoming gain value), starts the incoming element at
volume 0, runs the per-frame ticks (`ticks` lists the sampled progress
values below 1), and at completion sets the outgoing element volume to
0, the incoming element volume to `targetVolume`, and pauses the
outgoing element.  The completion branch does not touch either gain
node's connections. -/
def crossfade (currentSource nextSource : AudioSource) (ticks : List Rat) :
    FadeState :=
  if currentSource.audio.paused then
    { current := currentSource,
      next := (play benignPlayEnv nextSource).source }
  else
    let currentVolume := currentSource.audio.volume
    let targetVolume := nextSource.gainNode.gain.value
    let nextSource :=
      { nextSource with audio := { nextSource.audio with volume := 0 } }
    let nextSource := (play benignPlayEnv nextSource).source
    let st := ticks.foldl
      (fun st p => crossfadeTick currentVolume targetVolume p st)
      { current := currentSource, next := nextSource }
    let st := { st with
      current := { st.current with audio := { st.current.audio with volume := 0 } },
      next := { st.next with audio := { st.next.audio with volume := targetVolume } } }
    { st with
      current := { st.current with audio := { st.current.audio with paused := true } } }

/-- A concrete playing, connected outgoing source. -/
def srcOut : AudioSource :=
  ⟨⟨"urlA", false, false, 0, (1 : Rat) / 2, true⟩,
   ⟨⟨(1 : Rat) / 2, false⟩, true⟩,
   ⟨"urlA", "Track A", "rain"⟩⟩

/-- A concrete paused incoming source whose configured gain is `7/10`. -/
def srcIn : AudioSource :=
  ⟨⟨"urlB", true, false, 0, 0, true⟩,
   ⟨⟨(7 : Rat) / 10, false⟩, true⟩,
   ⟨"urlB", "Track B", "rain"⟩⟩

/-- The crossfade tick loop never touches either gain node. -/
theorem fade_foldl_gainNode (cv tv : Rat) :
    ∀ (ticks : List Rat) (st : FadeState),
    ((ticks.foldl (fun st p => crossfadeTick cv tv p st) st).current.gainNode
      = st.current.gainNode) ∧
    ((ticks.foldl (fun st p => crossfadeTick cv tv p st) st).next.gainNode
      = st.next.gainNode) := by
  intro ticks
  induction ticks with
  | nil => intro st; exact ⟨rfl, rfl⟩
  | cons p ps ih =>
    intro st
    have h1 := ih (crossfadeTick cv tv p st)
    have h2 : (crossfadeTick cv tv p st).current.gainNode = st.current.gainNode ∧
        (crossfadeTick cv tv p st).next.gainNode = st.next.gainNode := by
      unfold crossfadeTick
      by_cases hc : st.current.audio.paused <;>
        by_cases hn : st.next.audio.paused <;> simp [hc, hn]
    simp only [List.foldl_cons]
    exact ⟨h1.1.trans h2.1, h1.2.trans h2.2⟩

/-- C1 (counterexample to the claim as stated): with a playing, connected
outgoing source, the crossfade completion branch pauses the outgoing
element but leaves its gain node connected — the claim requires the
outgoing gain node to be disconnected at completion. -/
theorem crossfade_gain_not_disconnected_counterexample :
    srcOut.audio.paused = false ∧
    (crossfade srcOut srcIn []).current.audio.paused = true ∧
    (crossfade srcOut srcIn []).current.gainNode.connected = true := by
  decide

/-- C1 (amended): when the outgoing source is not paused at the call, the
completed crossfade pauses the outgoing element and zeroes its element
volume but leaves its gain node exactly as it was (in particular still
connected — the completion branch disconnects nothing), and the incoming
element volume ends exactly at the configured volume (the incoming gain
value captured at crossfade start): positive whenever the configured
volume is positive, and never above it. -/
theorem crossfade_completion_endpoints (cur next : AudioSource)
    (ticks : List Rat) (h : cur.audio.paused = false) :
    (crossfade cur next ticks).current.audio.paused = true ∧
    (crossfade cur next ticks).current.audio.volume = 0 ∧
    (crossfade cur next ticks).current.gainNode = cur.gainNode ∧
    (crossfade cur next ticks).next.audio.volume = next.gainNode.gain.value ∧
    ((0 : Rat) < next.gainNode.gain.value →
      0 < (crossfade cur next ticks).next.audio.volume) ∧
    (crossfade cur next ticks).next.audio.volume ≤ next.gainNode.gain.value := by
  have hfold := fade_foldl_gainNode cur.audio.volume next.gainNode.gain.value
    ticks
    { current := cur,
      next := (play benignPlayEnv
        { next with audio := { next.audio with volume := 0 } }).source }
  unfold crossfade
  simp only [h, Bool.false_eq_true, if_false]
  exact ⟨trivial, trivial, hfold.1.trans rfl, trivial, fun hpos => hpos,
    le_refl _⟩

/-- C1 witness: the amended endpoints at the concrete source pair. -/
theorem crossfade_completion_endpoints_witness :
    (crossfade srcOut srcIn []).current.audio.paused = true ∧
    (crossfade srcOut srcIn []).next.audio.volume =
      srcIn.gainNode.gain.value := by
  have h := crossfade_completion_endpoints srcOut srcIn [] (by decide)
  exact ⟨h.1, h.2.2.2.1⟩

/-- C2: with a live (non-closed) context, `setVolume` writes `v / 100`
to both the media element and the gain value, cancels any scheduled gain
ramps, and changes nothing else about connection or playback state. -/
theorem setVolume_sets_both_and_cancels_ramps (st : CtxState)
    (source : AudioSource) (v : Rat) (h0 : 0 ≤ v) (h100 : v ≤ 100)
    (hst : st ≠ CtxState.closed) :
    (setVolume (some st) source v).audio.volume = v / 100 ∧
    (setVolume (some st) source v).gainNode.gain.value = v / 100 ∧
    (setVolume (some st) source v).gainNode.gain.hasScheduledRamps = false ∧
    (setVolume (some st) source v).gainNode.connected =
      source.gainNode.connected ∧
    (setVolume (some st) source v).audio.paused = source.audio.paused := by
  unfold setVolume
  simp [hst]

/-- C2 witness: volume 30 on the concrete running-context source. -/
theorem setVolume_sets_both_witness :
    (setVolume (some CtxState.running) srcOut 30).audio.volume = 30 / 100 ∧
    (setVolume (some CtxState.running) srcOut 30).gainNode.gain.value =
      30 / 100 := by
  have h := setVolume_sets_both_and_cancels_ramps CtxState.running srcOut 30
    (by norm_num) (by norm_num) (by decide)
  exact ⟨h.1, h.2.1⟩

/-- C5 (counterexample to the claim as stated): a paused source whose
`audio.play()` rejects while the context is running is rethrown
immediately — zero resume-and-retry attempts, not the exactly-one the
claim requires. -/
theorem play_rejects_no_retry_counterexample :
    srcIn.audio.paused = true ∧
    (play ⟨true, false, CtxState.running⟩ srcIn).retries = 0 ∧
    (play ⟨true, false, CtxState.running⟩ srcIn).failed = true := by
  decide

/-- C5 (amended): `play` never retries more than once; when the first
`audio.play()` rejects it performs the single resume-and-retry only if
the context is then suspended (failing exactly when the retry also
rejects), and otherwise fails immediately with zero retries. -/
theorem play_retry_spec :
    (∀ (env : PlayEnv) (source : AudioSource),
      (play env source).retries ≤ 1) ∧
    (∀ (env : PlayEnv) (source : AudioSource),
      source.audio.paused = true → env.firstPlayRejects = true →
      (env.ctxStateAtRejection = CtxState.suspended →
        (play env source).retries = 1 ∧
        (play env source).failed = env.retryPlayRejects) ∧
      (env.ctxStateAtRejection ≠ CtxState.suspended →
        (play env source).retries = 0 ∧ (play env source).failed = true)) := by
  constructor
  · intro env source
    unfold play
    by_cases hp : source.audio.paused <;>
      by_cases h1 : env.firstPlayRejects <;>
      by_cases hs : env.ctxStateAtRejection = CtxState.suspended <;>
      by_cases h2 : env.retryPlayRejects <;>
      simp [hp, h1, hs, h2]
  · intro env source hp h1
    constructor
    · intro hs
      unfold play
      by_cases h2 : env.retryPlayRejects <;> simp [hp, h1, hs, h2]
    · intro hs
      unfold play
      simp [hp, h1, hs]

/-- C5 witness: first play and retry both reject with a suspended
context: exactly one retry, then failure. -/
theorem play_retry_spec_witness :
    (play ⟨true, true, CtxState.suspended⟩ srcIn).retries = 1 ∧
    (play ⟨true, true, CtxState.suspended⟩ srcIn).failed = true := by
  have h := (play_retry_spec.2 ⟨true, true, CtxState.suspended⟩ srcIn
    (by decide) (by decide)).1 rfl
  exact ⟨h.1, h.2⟩

/-- C8: engine-level idempotence.  `play` on a source whose element is
already playing returns with no error, no retry, and the source exactly
as it was (the disconnect-reconnect pair restores the connected gain
node); `pause` on a source whose element is already paused returns it
unchanged and cannot throw (its catch only logs). -/
theorem play_pause_idempotent :
    (∀ (env : PlayEnv) (source : AudioSource),
      source.audio.paused = false → source.gainNode.connected = true →
      play env source = { source := source, retries := 0, failed := false }) ∧
    (∀ (source : AudioSource), source.audio.paused = true →
      pause source = source) := by
  constructor
  · intro env s hp hc
    have hg : { s.gainNode with connected := true } = s.gainNode := by
      rw [← hc]
    unfold play
    rw [hg]
    simp [hp]
  · intro s hp
    unfold pause
    simp [hp]

/-- C8 witness: the concrete playing source and the concrete paused
source are both left unchanged. -/
theorem play_pause_idempotent_witness :
    play benignPlayEnv srcOut =
      { source := srcOut, retries := 0, failed := false } ∧
    pause srcIn = srcIn :=
  ⟨play_pause_idempotent.1 benignPlayEnv srcOut (by decide) (by decide),
   play_pause_idempotent.2 srcIn (by decide)⟩

end AudioEngine

/-- Environment of the `AudioSourceProvider`: development flag, the
optional `VITE_CDN_URL`, and the clock used by the cache buster. -/
structure ResolverEnv where
  isDevelopment : Bool
  cdnUrl : Option String
  nowMs : Nat
  deriving DecidableEq, Repr

namespace AudioSourceProvider

/-- Hardcoded fallback source for the `brown-noise` category
(src/services/audio-source-provider.ts and the emergency fallback in
src/utils/audio-cache.ts). -/
def brownNoiseFallbackUrl : String :=
  "https://assets.mixkit.co/sfx/preview/mixkit-forest-in-the-morning-2731.mp3"

/-- Hardcoded fallback source for the `rain` category (and the default
emergency fallback of the cache). -/
def rainFallbackUrl : String :=
  "https://assets.mixkit.co/sfx/preview/mixkit-ambient-rain-loop-2691.mp3"

/-- Source function `AudioSourceProvider.getCdnUrl`: proxy path in development, direct
CDN URL in production, empty when no CDN is configured. -/
def getCdnUrl (env : ResolverEnv) (path : String) : String :=
  match env.cdnUrl with
  | none => ""
  | some cdn =>
    if env.isDevelopment then "/api/cdn/" ++ path else cdn ++ "/" ++ path

/-- Source function `AudioSourceProvider.getProxyUrl`: rewrites a Firebase Storage URL to
the `/api/storage` proxy, keeping pathname and query; an unparsable URL
is returned unchanged (the catch branch). -/
def getProxyUrl (url : String) : String :=
  match url.splitOn "://" with
  | [_, rest] => "/api/storage" ++ (rest.dropWhile (fun c => c ≠ '/'))
  | _ => url

/-- Source function `AudioSourceProvider.getFallbackUrl`: category-keyed hardcoded
fallback, empty for unknown categories. -/
def getFallbackUrl (category : String) : String :=
  if category = "brown-noise" then brownNoiseFallbackUrl
  else if category = "rain" then rainFallbackUrl
  else ""

/-- Whether `pat` is a leading segment of `l` (helper for the JS
`String.prototype.includes`). -/
def leadSeg : List Char → List Char → Bool
  | [], _ => true
  | _ :: _, [] => false
  | b :: bs, a :: as => (b = a) && leadSeg bs as

/-- Whether `pat` occurs inside `l` (the JS `includes` on char lists). -/
def occursIn (pat : List Char) : List Char → Bool
  | [] => leadSeg pat []
  | a :: as => leadSeg pat (a :: as) || occursIn pat as

/-- The JS truthiness test `track.url.includes('firebasestorage...')`
combined with `track.url &&`. -/
def urlIsFirebase (url : String) : Bool :=
  url ≠ "" && occursIn "firebasestorage.googleapis.com".toList url.toList

/-- Source function `AudioSourceProvider.getAudioUrl` with default options
(src/services/audio-source-provider.ts, lines 211-247): CDN first when
configured and the track has a storage path, then the development proxy
for Firebase URLs, then the development fallback by category, else the
original URL (possibly empty). -/
def getAudioUrl (env : ResolverEnv) (track : AudioTrack) : String :=
  let useProxy := env.isDevelopment
  let useCdn := env.cdnUrl.isSome
  let useFallbacks := env.isDevelopment
  let cdnResult :=
    match track.fullPath with
    | some path => if useCdn then getCdnUrl env path else ""
    | none => ""
  if cdnResult ≠ "" then cdnResult
  else if urlIsFirebase track.url ∧ useProxy then getProxyUrl track.url
  else if useFallbacks ∧ track.category ≠ "" ∧
      getFallbackUrl track.category ≠ "" then
    getFallbackUrl track.category
  else track.url

/-- Source function `AudioSourceProvider.addCacheBuster`: appends `?t=<now>` unless the
URL already carries query parameters. -/
def addCacheBuster (env : ResolverEnv) (url : String) : String :=
  if url.contains '?' then url else url ++ "?t=" ++ toString env.nowMs

end AudioSourceProvider

/-- Which awaited collaborator calls inside the cache layer reject. -/
structure DbEnv where
  dbInitRejects : Bool
  cleanupRejects : Bool
  updateRejects : Bool
  getRejects : Bool
  getCachedRejects : Bool
  deriving DecidableEq, Repr

/-- The persisted per-URL playback state record. -/
structure PlaybackState where
  volume : Rat
  isPlaying : Bool
  currentTime : Rat
  lastSync : Nat
  deriving DecidableEq, Repr

namespace AudioCache

open AudioSourceProvider

/-- Source function `AudioCache.init` (src/utils/audio-cache.ts, lines 14-23): opens the
database and purges old entries; on any failure it logs and RETHROWS a
fresh error, so the rejection propagates to the caller. -/
def init (env : DbEnv) : Except String Unit :=
  if env.dbInitRejects ∨ env.cleanupRejects then
    .error "Failed to initialize audio cache database. Please try again."
  else .ok ()

/-- Source function `AudioCache.updatePlaybackState` (src/utils/audio-cache.ts, lines
189-201): always resolves; a failing database write is logged and
swallowed.  The returned boolean records whether the write happened. -/
def updatePlaybackState (env : DbEnv) : Except String Bool :=
  .ok (¬ env.updateRejects)

/-- Source function `AudioCache.getPlaybackState` (src/utils/audio-cache.ts, lines
203-210): always resolves, returning `null` when the read fails. -/
def getPlaybackState (env : DbEnv) (stored : Option PlaybackState) :
    Except String (Option PlaybackState) :=
  .ok (if env.getRejects then none else stored)

/-- Source function `AudioCache.getCachedTracks` (src/utils/audio-cache.ts, lines
212-219): always resolves, returning `[]` when the read fails. -/
def getCachedTracks (env : DbEnv) (cached : List AudioTrack) :
    Except String (List AudioTrack) :=
  .ok (if env.getCachedRejects then [] else cached)

/-- Environment of one `loadAudioWithCache` call: the resolver
environment, whether the inner (swallowed) playback-state write rejects,
and whether anything else inside the try body throws. -/
structure LoadEnv where
  resolver : ResolverEnv
  dbUpdateRejects : Bool
  setupThrows : Bool
  deriving DecidableEq, Repr

/-- Result of `loadAudioWithCache`: the audio element handed back and
whether the emergency fallback branch produced it. -/
structure LoadedAudio where
  element : MediaElement
  usedFallback : Bool
  deriving DecidableEq, Repr

/-- Source function `AudioCache.loadAudioWithCache` (src/utils/audio-cache.ts, lines
84-187), a total function: the try body builds an element on the
resolved URL (with cache buster); an empty resolved URL or any other
throw inside the try lands in the catch, which builds a fallback element
on the hardcoded brown-noise URL when `track.category === 'brown-noise'`
and on the hardcoded rain URL for any other category.  The inner
playback-state write failure is swallowed inside the try and never
reaches the catch. -/
def loadAudioWithCache (env : LoadEnv) (track : AudioTrack) : LoadedAudio :=
  let audioURL := getAudioUrl env.resolver track
  if audioURL = "" ∨ env.setupThrows then
    { element :=
        { src := if track.category = "brown-noise" then brownNoiseFallbackUrl
                 else rainFallbackUrl,
          paused := true, ended := false, currentTime := 0, volume := 1,
          loop := false },
      usedFallback := true }
  else
    { element :=
        { src := addCacheBuster env.resolver audioURL,
          paused := true, ended := false, currentTime := 0, volume := 1,
          loop := false },
      usedFallback := false }

end AudioCache

/-- C7 (counterexample to the claim as stated): when the database open
fails, `AudioCache.init` does not swallow the failure — it rethrows a
fresh error, so this cache call rejects instead of resolving normally. -/
theorem cache_init_rejects_counterexample :
    AudioCache.init ⟨true, false, false, false, false⟩ =
      .error "Failed to initialize audio cache database. Please try again." := by
  rfl

/-- C7 (amended): `updatePlaybackState`, `getPlaybackState` and
`getCachedTracks` are best-effort — they always resolve, degrading to a
skipped write, `null`, or `[]` on failure — but `init` propagates a
database failure to its caller as a rejection, resolving only when both
the open and the cleanup succeed. -/
theorem cache_best_effort_spec :
    (∀ (env : DbEnv), (AudioCache.updatePlaybackState env).isOk = true) ∧
    (∀ (env : DbEnv) (stored : Option PlaybackState),
      (AudioCache.getPlaybackState env stored).isOk = true ∧
      (env.getRejects = true →
        AudioCache.getPlaybackState env stored = .ok none)) ∧
    (∀ (env : DbEnv) (cached : List AudioTrack),
      (AudioCache.getCachedTracks env cached).isOk = true ∧
      (env.getCachedRejects = true →
        AudioCache.getCachedTracks env cached = .ok [])) ∧
    (∀ (env : DbEnv), env.dbInitRejects = true ∨ env.cleanupRejects = true →
      (AudioCache.init env).isOk = false) ∧
    (∀ (env : DbEnv), env.dbInitRejects = false → env.cleanupRejects = false →
      AudioCache.init env = .ok ()) := by
  refine ⟨fun env => rfl, fun env stored => ⟨rfl, fun hg => ?_⟩,
    fun env cached => ⟨rfl, fun hg => ?_⟩, fun env hf => ?_, fun env h1 h2 => ?_⟩
  · unfold AudioCache.getPlaybackState
    simp [hg]
  · unfold AudioCache.getCachedTracks
    simp [hg]
  · unfold AudioCache.init
    rcases hf with hf | hf <;> simp [hf, Except.isOk, Except.toBool]
  · unfold AudioCache.init
    simp [h1, h2]

/-- C7 witness: a failed read degrades to `.ok none`; a healthy database
makes `init` resolve even when later reads and writes would fail. -/
theorem cache_best_effort_spec_witness :
    AudioCache.getPlaybackState ⟨false, false, false, true, false⟩ none =
      .ok none ∧
    AudioCache.init ⟨false, false, true, true, true⟩ = .ok () := by
  have h1 := (cache_best_effort_spec.2.1 ⟨false, false, false, true, false⟩
    none).2 rfl
  have h2 := cache_best_effort_spec.2.2.2.2 ⟨false, false, true, true, true⟩
    rfl rfl
  exact ⟨h1, h2⟩

/-- C10: `loadAudioWithCache` is total (it always hands back an audio
element, never rejecting): the fallback branch is taken exactly when URL
resolution produced an empty URL or the try body threw, and the fallback
element's source is the hardcoded brown-noise fallback URL for the
`brown-noise` category and the hardcoded rain fallback URL for any other
category; on the normal branch the element's source is the resolved URL
with cache buster. -/
theorem loadAudioWithCache_total_fallback (env : AudioCache.LoadEnv)
    (track : AudioTrack) :
    ((AudioCache.loadAudioWithCache env track).usedFallback = true →
      (AudioCache.loadAudioWithCache env track).element.src =
        (if track.category = "brown-noise" then
          AudioSourceProvider.brownNoiseFallbackUrl
        else AudioSourceProvider.rainFallbackUrl)) ∧
    ((AudioCache.loadAudioWithCache env track).usedFallback = false →
      (AudioCache.loadAudioWithCache env track).element.src =
        AudioSourceProvider.addCacheBuster env.resolver
          (AudioSourceProvider.getAudioUrl env.resolver track)) ∧
    ((AudioCache.loadAudioWithCache env track).usedFallback = true ↔
      (AudioSourceProvider.getAudioUrl env.resolver track = "" ∨
        env.setupThrows = true)) := by
  unfold AudioCache.loadAudioWithCache
  by_cases hc : AudioSourceProvider.getAudioUrl env.resolver track = "" ∨
      env.setupThrows = true
  · simp only [hc]
    rcases hc with hc | hc <;> simp [hc]
  · push_neg at hc
    simp [hc.1, hc.2]

/-- C10 witness: with resolution yielding a non-empty URL but the try
body throwing, the rain-category track falls back to the hardcoded rain
URL. -/
theorem loadAudioWithCache_total_fallback_witness :
    (AudioCache.loadAudioWithCache ⟨⟨false, none, 5⟩, false, true⟩
      TrackManager.trackA).element.src =
      AudioSourceProvider.rainFallbackUrl := by
  have h := (loadAudioWithCache_total_fallback ⟨⟨false, none, 5⟩, false, true⟩
    TrackManager.trackA).1 (by decide)
  exact h.trans (by decide)

/-- The per-lane state `AudioState` (src/types/audio.ts) kept by the
controller component. -/
structure AudioState where
  isPlaying : Bool
  volume : Nat
  currentTrackIndex : Nat
  deriving DecidableEq, Repr

/-- The controller state visible to the view: the brown-noise lane and
the single current error slot (`error` React state). -/
structure ControllerState where
  brownNoiseState : AudioState
  error : Option String
  deriving DecidableEq, Repr

/-- Environment of one `toggleBrownNoise` call: whether the context and
source refs are populated, the context state, whether `resume()` or
`audio.play()` reject, and the message of the rejection error. -/
structure ToggleEnv where
  refsReady : Bool
  ctxState : CtxState
  resumeRejects : Bool
  playRejects : Bool
  errMsg : String
  deriving DecidableEq, Repr

/-- Result of `toggleBrownNoise`: the new controller state and the
(possibly mutated) engine source held in `brownNoiseRef`. -/
structure ToggleResult where
  state : ControllerState
  source : AudioSource
  deriving DecidableEq, Repr

/-- Source function `toggleBrownNoise` (src/components/AmbientPlayer.tsx, lines
523-556), a total function — the surrounding try/catch means the async
function always resolves.  Missing refs return early with no change; a
suspended context is resumed (a rejection lands in the catch); when
starting, the gain value is set to `volume / 100` before `audio.play()`
(so that mutation survives a play rejection), and a rejection lands in
the catch, which only records the error message; on success the lane's
`isPlaying` flips and the error slot clears.  The pause branch also
pauses the prefetched next element, which cannot reject and is not
modelled. -/
def toggleBrownNoise (env : ToggleEnv) (st : ControllerState)
    (src : AudioSource) : ToggleResult :=
  if ¬ env.refsReady then { state := st, source := src }
  else if env.ctxState = CtxState.suspended ∧ env.resumeRejects then
    { state := { st with error := some ("Failed to play audio: " ++ env.errMsg) },
      source := src }
  else if ¬ st.brownNoiseState.isPlaying then
    let src := { src with gainNode := { src.gainNode with
      gain := { src.gainNode.gain with
        value := (st.brownNoiseState.volume : Rat) / 100 } } }
    if env.playRejects then
      { state := { st with error := some ("Failed to play audio: " ++ env.errMsg) },
        source := src }
    else
      { state := { st with
          brownNoiseState := { st.brownNoiseState with isPlaying := true },
          error := none },
        source := { src with audio := { src.audio with paused := false } } }
  else
    { state := { st with
        brownNoiseState := { st.brownNoiseState with isPlaying := false },
        error := none },
      source := { src with audio := { src.audio with paused := true } } }

/-- C6: when a toggle fails (the resume rejects on a suspended context,
or the play call rejects when starting), the operation records a single
current error string in the state snapshot and leaves the lane state
(`isPlaying`, `volume`, `currentTrackIndex`) exactly as it was; being a
total function, it resolves without throwing across the view boundary. -/
theorem toggleBrownNoise_failure_semantics (env : ToggleEnv)
    (st : ControllerState) (src : AudioSource)
    (hready : env.refsReady = true)
    (hfail : (env.ctxState = CtxState.suspended ∧ env.resumeRejects = true) ∨
      (st.brownNoiseState.isPlaying = false ∧ env.playRejects = true)) :
    (toggleBrownNoise env st src).state.error =
      some ("Failed to play audio: " ++ env.errMsg) ∧
    (toggleBrownNoise env st src).state.brownNoiseState =
      st.brownNoiseState := by
  unfold toggleBrownNoise
  rcases hfail with ⟨hs, hr⟩ | ⟨hp, hj⟩
  · simp [hready, hs, hr]
  · by_cases hsr : env.ctxState = CtxState.suspended ∧ env.resumeRejects = true
    · simp [hready, hsr.1, hsr.2]
    · simp only [hready] at hsr ⊢
      simp [hsr, hp, hj]

/-- C6 witness: a play rejection on an idle lane records the error and
leaves the lane state untouched. -/
theorem toggleBrownNoise_failure_witness :
    (toggleBrownNoise ⟨true, CtxState.running, false, true, "NotAllowedError"⟩
      ⟨⟨false, 50, 0⟩, none⟩ AudioEngine.srcIn).state.error =
      some ("Failed to play audio: " ++ "NotAllowedError") ∧
    (toggleBrownNoise ⟨true, CtxState.running, false, true, "NotAllowedError"⟩
      ⟨⟨false, 50, 0⟩, none⟩ AudioEngine.srcIn).state.brownNoiseState =
      ⟨false, 50, 0⟩ :=
  toggleBrownNoise_failure_semantics _ _ _ rfl (Or.inr ⟨rfl, rfl⟩)

end AmbientPlayer
